import Mathlib

/-!
Verification of the RCM-Generator analysis engine against its specification.

The definitions below are shallow embeddings of the TypeScript source:
  * `src/types.ts`                     — the data model (`RCMItem`, sheets, studies);
  * `src/App.tsx`                      — the undo history (`handleResultsUpdate`,
                                         `handleUndo`) and `handleSaveStudy`;
  * `src/services/geminiService.ts`    — batch-generation normalization;
  * `src/components/AICopilot.tsx`     — `parseAIResponse` and `applySingleAction`;
  * `src/components/AnalysisResult.tsx`— inline-edit save, filters, exports.

JavaScript numbers are modelled as `Int` (the program only ever computes with
integral scores), strings as `String`, `undefined`/absent fields as `Option`,
and the JS truthiness idiom `x || d` as explicit helpers (`jsOrNum`, `jsOrStr`):
for numbers `0` is falsy, for strings `""` is falsy, and a missing value is
falsy.  Nondeterministic identifiers (`Date.now()`, `Math.random()`) are passed
in as explicit parameters.
-/

/-- JS `String.prototype.trim()`: strip leading and trailing whitespace,
modelled characterwise. -/
def jsTrim (s : String) : String :=
  String.mk (((s.data.dropWhile Char.isWhitespace).reverse.dropWhile
    Char.isWhitespace).reverse)

/-- JS `x || d` for a number that is definitely present (0 is falsy). -/
def jsOrInt (x d : Int) : Int := if x = 0 then d else x

/-- JS `x || d` for a possibly-missing number (`undefined` and 0 are falsy). -/
def jsOrNum (x : Option Int) (d : Int) : Int :=
  match x with
  | none => d
  | some v => if v = 0 then d else v

/-- JS `x || d` for a possibly-missing string (`undefined` and `""` are falsy). -/
def jsOrStr (x : Option String) (d : String) : String :=
  match x with
  | none => d
  | some s => if s = "" then d else s

/-- `src/types.ts` `ComponentIntel`. -/
structure ComponentIntel where
  description : String
  location : String
  visualCues : String
deriving DecidableEq, Repr

/-- `src/types.ts` `InspectionStep`. -/
structure InspectionStep where
  step : Int
  description : String
  criteria : String
  technique : String
deriving DecidableEq, Repr

/-- `src/types.ts` `InspectionSheet` (including the legacy optional fields). -/
structure InspectionSheet where
  responsibility : String
  estimatedTime : String
  safetyPrecautions : String
  toolsRequired : String
  steps : List InspectionStep
  checkPointDescription : Option String := none
  sheetType : Option String := none
  criteriaLimits : Option String := none
  normalCondition : Option String := none
deriving DecidableEq, Repr

/-- `src/types.ts` `RCMItem`, the canonical failure-mode record.  The runtime
code also attaches `isNew` and `componentIntel`, so they are part of the model;
enumerated fields are kept as strings, exactly as they travel through the
program. -/
structure RCMItem where
  id : String
  component : String
  function : String
  functionalFailure : String
  failureMode : String
  failureEffect : String
  criticality : String
  consequenceCategory : String
  iso14224Code : String
  severity : Int
  occurrence : Int
  detection : Int
  rpn : Int
  maintenanceTask : String
  interval : String
  taskType : String
  inspectionSheet : Option InspectionSheet := none
  componentIntel : Option ComponentIntel := none
  isNew : Bool := false
deriving DecidableEq, Repr

/-- `src/types.ts` `FileData`. -/
structure FileData where
  name : String
  mimeType : String
  data : String
deriving DecidableEq, Repr

/-- `src/types.ts` `SavedStudy`, the document handed to the Study Store. -/
structure SavedStudy where
  id : String
  name : String
  timestamp : Nat
  items : List RCMItem
  contextText : String
  fileName : Option String := none
deriving DecidableEq, Repr

/-! ## Undo history (`src/App.tsx` lines 273-285)

The relevant `App` state is the current dataset `results : RCMItem[] | null`
and the snapshot stack `history : RCMItem[][]`. -/

/-- The undo-relevant slice of the `App` component state. -/
structure UndoState where
  results : Option (List RCMItem)
  history : List (List RCMItem)
deriving DecidableEq, Repr

/-- `src/App.tsx` `handleResultsUpdate`: push the pre-mutation dataset (only
when one exists) onto the history, keeping at most the last 29 old snapshots
(`prev.slice(-29)` followed by the push, so the stack never exceeds 30), then
replace the dataset. -/
def handleResultsUpdate (st : UndoState) (newData : List RCMItem) : UndoState :=
  { results := some newData
    history :=
      match st.results with
      | some r => st.history.drop (st.history.length - 29) ++ [r]
      | none => st.history }

/-- `src/App.tsx` `handleUndo`: if the stack is empty do nothing, otherwise pop
the most recent snapshot and make it the current dataset. -/
def handleUndo (st : UndoState) : UndoState :=
  match st.history.getLast? with
  | none => st
  | some lastState => { results := some lastState, history := st.history.dropLast }

/-- A sequence of caller-initiated mutations through the public update entry
point. -/
def applyUpdates (st : UndoState) (ds : List (List RCMItem)) : UndoState :=
  ds.foldl handleResultsUpdate st

/-- `n` consecutive undo calls. -/
def applyUndos : UndoState → Nat → UndoState
  | st, 0 => st
  | st, n + 1 => applyUndos (handleUndo st) n

/-- A deterministic sample record used for concrete scenarios. -/
def sampleRCMItem : RCMItem :=
  { id := "rcm-1", component := "Pump", function := "Move fluid",
    functionalFailure := "No flow", failureMode := "Wear due to Cause",
    failureEffect := "Local/System effects", criticality := "Medium",
    consequenceCategory := "Evident - Operational", iso14224Code := "Wear",
    severity := 5, occurrence := 3, detection := 3, rpn := 45,
    maintenanceTask := "Inspection/Task", interval := "Weekly",
    taskType := "Condition Monitoring" }

/-- Pairwise-distinct concrete datasets (they differ in length). -/
def mkDataset (n : Nat) : List RCMItem := List.replicate n sampleRCMItem

/-! ## Proposals and their application (`src/components/AICopilot.tsx`)

A proposal's `item` is a `Partial<RCMItem>`: every field may be absent. -/

/-- `Partial<RCMItem>` as carried by a `ProposedAction`. -/
structure PartialRCMItem where
  id : Option String := none
  component : Option String := none
  function : Option String := none
  functionalFailure : Option String := none
  failureMode : Option String := none
  failureEffect : Option String := none
  criticality : Option String := none
  consequenceCategory : Option String := none
  iso14224Code : Option String := none
  severity : Option Int := none
  occurrence : Option Int := none
  detection : Option Int := none
  rpn : Option Int := none
  maintenanceTask : Option String := none
  interval : Option String := none
  taskType : Option String := none
  inspectionSheet : Option InspectionSheet := none
  componentIntel : Option ComponentIntel := none
  isNew : Option Bool := none
deriving DecidableEq, Repr

/-- A proposed action as consumed by `applySingleAction` (`type` is `'ADD'`,
`'UPDATE'` or `'DELETE'`; kept as a string exactly like the runtime value). -/
structure Proposal where
  type : String
  item : PartialRCMItem
  reason : String := ""
deriving DecidableEq, Repr

/-- `applySingleAction`'s UPDATE match test:
`proposal.item?.id ? item.id === proposal.item.id : item.component === proposal.item?.component`.
An absent or empty (falsy) `id` falls back to comparing `component`; an absent
`component` compares equal to nothing. -/
def updateMatches (p : PartialRCMItem) (r : RCMItem) : Bool :=
  match p.id with
  | some i => if i ≠ "" then r.id == i else
      match p.component with
      | some c => r.component == c
      | none => false
  | none =>
      match p.component with
      | some c => r.component == c
      | none => false

/-- `applySingleAction`'s UPDATE merge on a matched record:
`{ ...item, ...proposal.item, isNew: false }` followed by `Number` coercion of
the three scores (identity on integers) and `rpn` recomputation. -/
def mergeUpdate (r : RCMItem) (p : PartialRCMItem) : RCMItem :=
  let s := p.severity.getD r.severity
  let o := p.occurrence.getD r.occurrence
  let d := p.detection.getD r.detection
  { id := p.id.getD r.id
    component := p.component.getD r.component
    function := p.function.getD r.function
    functionalFailure := p.functionalFailure.getD r.functionalFailure
    failureMode := p.failureMode.getD r.failureMode
    failureEffect := p.failureEffect.getD r.failureEffect
    criticality := p.criticality.getD r.criticality
    consequenceCategory := p.consequenceCategory.getD r.consequenceCategory
    iso14224Code := p.iso14224Code.getD r.iso14224Code
    severity := s
    occurrence := o
    detection := d
    rpn := s * o * d
    maintenanceTask := p.maintenanceTask.getD r.maintenanceTask
    interval := p.interval.getD r.interval
    taskType := p.taskType.getD r.taskType
    inspectionSheet := match p.inspectionSheet with
      | some sh => some sh
      | none => r.inspectionSheet
    componentIntel := match p.componentIntel with
      | some ci => some ci
      | none => r.componentIntel
    isNew := false }

/-- `applySingleAction`'s UPDATE branch: map over the whole dataset, replacing
every record the match test accepts by its merge. -/
def applyUpdateProposal (data : List RCMItem) (p : PartialRCMItem) : List RCMItem :=
  data.map fun item => if updateMatches p item then mergeUpdate item p else item

/-- `applySingleAction`'s ADD branch (the `AICopilot` variant that builds
`componentIntel` and tags `isNew`): coerce-or-default the three scores
(`Number(x) || 5/3/3`), default every text field, derive `criticality` from
severity thresholds when absent, compute `rpn` as the plain product, and append.
The fresh `id` (`rcm-ai-${Date.now()}-${random}`) is passed in as `newId`. -/
def buildAddItem (newId : String) (p : PartialRCMItem) : RCMItem :=
  let s := jsOrNum p.severity 5
  let o := jsOrNum p.occurrence 3
  let d := jsOrNum p.detection 3
  { id := newId
    component := jsOrStr p.component "Auxiliary Component"
    componentIntel := some
      { description := jsOrStr (p.componentIntel.map fun ci => ci.description)
          "Synchronized via MIRA Intelligence synthesis."
        location := jsOrStr (p.componentIntel.map fun ci => ci.location)
          "Refer to asset structural diagram."
        visualCues := jsOrStr (p.componentIntel.map fun ci => ci.visualCues)
          "Standard industrial physical cues." }
    function := jsOrStr p.function "General design function."
    functionalFailure := jsOrStr p.functionalFailure "Total loss of operational function."
    failureMode := jsOrStr p.failureMode "General wear and degradation."
    failureEffect := jsOrStr p.failureEffect "Local system operational impact."
    consequenceCategory := jsOrStr p.consequenceCategory "Evident - Operational"
    iso14224Code := jsOrStr p.iso14224Code "UNC"
    criticality := jsOrStr p.criticality
      (if s ≥ 8 then "High" else if s ≥ 5 then "Medium" else "Low")
    severity := s
    occurrence := o
    detection := d
    rpn := s * o * d
    maintenanceTask := jsOrStr p.maintenanceTask "Visual Inspection"
    interval := jsOrStr p.interval "Annually"
    taskType := jsOrStr p.taskType "Condition Monitoring"
    isNew := true }

/-- `applySingleAction`'s dataset transformation (`src/components/AICopilot.tsx`):
ADD appends the built record, UPDATE maps the merge over matches, DELETE (with a
truthy `item.id`) filters that id out, anything else leaves the data unchanged. -/
def applySingleActionData (newId : String) (data : Option (List RCMItem))
    (p : Proposal) : List RCMItem :=
  let newData := data.getD []
  if p.type == "ADD" then
    newData ++ [buildAddItem newId p.item]
  else if p.type == "UPDATE" then
    applyUpdateProposal newData p.item
  else if p.type == "DELETE" && (jsOrStr p.item.id "" != "") then
    newData.filter fun item => item.id != p.item.id.getD ""
  else
    newData

/-! ## Batch-generation normalization (`src/services/geminiService.ts` 204-217)

`generateRCMAnalysis` parses the service's JSON array and maps each raw item to
a record: `const s = item.severity || 8; const o = item.occurrence || 5;
const d = item.detection || 6;` then spreads the item and overrides the three
scores, `rpn: s * o * d`, a fresh id and `isNew: true`.  No clamping occurs. -/

/-- A raw candidate produced by the generation service (scores may be missing). -/
structure RawGenItem where
  component : String := ""
  componentIntel : Option ComponentIntel := none
  function : String := ""
  functionalFailure : String := ""
  failureMode : String := ""
  failureEffect : String := ""
  consequenceCategory : String := ""
  iso14224Code : String := ""
  criticality : String := ""
  severity : Option Int := none
  occurrence : Option Int := none
  detection : Option Int := none
  maintenanceTask : String := ""
  interval : String := ""
  taskType : String := ""
deriving DecidableEq, Repr

/-- Normalization of one raw batch item (`rawData.map` body); the fresh id
(`rcm-${Date.now()}-${index}-${random}`) is passed in as `newId`. -/
def normalizeGenItem (newId : String) (item : RawGenItem) : RCMItem :=
  let s := jsOrNum item.severity 8
  let o := jsOrNum item.occurrence 5
  let d := jsOrNum item.detection 6
  { id := newId
    component := item.component
    componentIntel := item.componentIntel
    function := item.function
    functionalFailure := item.functionalFailure
    failureMode := item.failureMode
    failureEffect := item.failureEffect
    consequenceCategory := item.consequenceCategory
    iso14224Code := item.iso14224Code
    criticality := item.criticality
    severity := s
    occurrence := o
    detection := d
    rpn := s * o * d
    maintenanceTask := item.maintenanceTask
    interval := item.interval
    taskType := item.taskType
    isNew := true }

/-- The whole batch normalization: map with index-dependent fresh ids. -/
def generateRCMAnalysisNormalize (mkId : Nat → String)
    (rawData : List RawGenItem) : List RCMItem :=
  (rawData.enum).map fun (pair : Nat × RawGenItem) => normalizeGenItem (mkId pair.1) pair.2

/-- The clamp the specification claims, written from the spec's own words
(`clamp(x, 1, 10)`), for comparison with the source's behaviour. -/
def specClamp (x : Int) : Int := max 1 (min x 10)

/-- Concrete partial item updating by component name only. -/
def componentOnlyUpdate : PartialRCMItem :=
  { component := some "Motor", severity := some 9 }

/-- Two records sharing one component name. -/
def recMotorA : RCMItem := { sampleRCMItem with id := "a", component := "Motor" }

/-- Second record with the same component name. -/
def recMotorB : RCMItem := { sampleRCMItem with id := "b", component := "Motor" }

/-! ## Inline-edit save (`src/components/AnalysisResult.tsx` `handleSave`) -/

/-- The synchronous commit of `handleSave`: find the original record by the id
being edited, decide whether the component/failureMode/maintenanceTask changed,
drop the inspection sheet when a critical field changed on a record that has
one, recompute `rpn` from the edited scores (`(x || 1)` each), and replace every
record with the edited id by the updated form. -/
def handleSaveEdit (data : List RCMItem) (editingId : String)
    (editForm : RCMItem) : List RCMItem :=
  match data.find? (fun d => d.id == editingId) with
  | none => data
  | some originalItem =>
      let hasCriticalChanges :=
        editForm.maintenanceTask != originalItem.maintenanceTask ||
        editForm.failureMode != originalItem.failureMode ||
        editForm.component != originalItem.component
      let needsRegeneration := hasCriticalChanges && originalItem.inspectionSheet.isSome
      let updatedForm :=
        { editForm with
          rpn := jsOrInt editForm.severity 1 * jsOrInt editForm.occurrence 1 *
            jsOrInt editForm.detection 1
          inspectionSheet := if needsRegeneration then none else editForm.inspectionSheet }
      data.map fun item => if item.id == editingId then updatedForm else item

/-! ## Risk-matrix toggle and the filter pipeline
(`src/components/AnalysisResult.tsx` `handleMatrixClick`, `processedData`) -/

/-- `handleMatrixClick`: clicking the already-active cell clears the filter,
clicking any other cell activates it. -/
def handleMatrixClick (mf : Option (Int × Int)) (s o : Int) : Option (Int × Int) :=
  match mf with
  | some (s', o') => if s' == s && o' == o then none else some (s, o)
  | none => some (s, o)

/-- The five per-field substring search boxes (empty string means inactive). -/
structure SearchFilters where
  component : String := ""
  function : String := ""
  failureMode : String := ""
  consequenceCategory : String := ""
  iso14224Code : String := ""
deriving DecidableEq, Repr

/-- First occurrence of `pat` in `s`, returned as the text before and after it
(JS `String.prototype.indexOf` / non-greedy regex search, on characters). -/
def firstSplit (pat : List Char) : List Char → Option (List Char × List Char)
  | [] => if pat.isEmpty then some ([], []) else none
  | c :: rest =>
      if pat.isPrefixOf (c :: rest) then some ([], (c :: rest).drop pat.length)
      else (firstSplit pat rest).map fun pr => (c :: pr.1, pr.2)

/-- JS `haystack.includes(needle)`. -/
def strIncludes (haystack needle : String) : Bool :=
  (firstSplit needle.data haystack.data).isSome

/-- One search box: `field.toLowerCase().includes(query.toLowerCase())`. -/
def matchesSearch (query field : String) : Bool :=
  strIncludes field.toLower query.toLower

/-- The filtering stages of `processedData` (matrix cell, chart-bar isolation,
then the five substring boxes, each applied only when active).  Sorting, which
follows these stages in the source, is independent of the filter toggles. -/
def applyFilterSteps (matrixFilter : Option (Int × Int)) (barFilter : Option String)
    (sf : SearchFilters) (data : List RCMItem) : List RCMItem :=
  let r1 := match matrixFilter with
    | some (s, o) =>
        data.filter fun item => jsOrInt item.severity 0 == s && jsOrInt item.occurrence 0 == o
    | none => data
  let r2 := match barFilter with
    | some b => if b == "" then r1 else r1.filter fun item => item.id == b
    | none => r1
  let r3 := if sf.component != "" then
      r2.filter (fun item => matchesSearch sf.component item.component) else r2
  let r4 := if sf.function != "" then
      r3.filter (fun item => matchesSearch sf.function item.function) else r3
  let r5 := if sf.failureMode != "" then
      r4.filter (fun item => matchesSearch sf.failureMode item.failureMode) else r4
  let r6 := if sf.consequenceCategory != "" then
      r5.filter (fun item => matchesSearch sf.consequenceCategory item.consequenceCategory) else r5
  if sf.iso14224Code != "" then
    r6.filter (fun item => matchesSearch sf.iso14224Code item.iso14224Code) else r6

/-! ## Explicit save (`src/App.tsx` `handleSaveStudy`) -/

/-- The slice of `App` state read by `handleSaveStudy` (through the refs). -/
structure AppSaveState where
  results : Option (List RCMItem)
  contextText : String
  fileData : Option FileData
  studyName : String
  currentStudyId : Option String
  savedStudies : List SavedStudy
deriving DecidableEq, Repr

/-- What `handleSaveStudy` produces: the document handed to the Study Store
(`none` when the early-return guard fires) and the in-memory dataset afterwards
(the function never calls `setResults`, so it is returned unchanged). -/
structure SaveOutcome where
  stored : Option SavedStudy
  resultsAfter : Option (List RCMItem)
deriving DecidableEq, Repr

/-- `src/App.tsx` `handleSaveStudy` (lines 190-232): guard on all-empty state,
default the name, reuse or mint the id (`study-${Date.now()}`), preserve the
timestamp on auto-saves of an existing study, clear `isNew` on the *copies*
placed in the stored document, and hand it to the store.  The in-memory
`results` is not modified. -/
def handleSaveStudy (isAutoSave : Bool) (now : Nat) (st : AppSaveState) : SaveOutcome :=
  if st.results.isNone && st.contextText == "" && st.fileData.isNone then
    ⟨none, st.results⟩
  else
    let nameToSave := jsOrStr (some (jsTrim st.studyName)) "Untitled Analysis"
    let idToSave := jsOrStr st.currentStudyId ("study-" ++ toString now)
    let existingStudy := st.savedStudies.find? fun s => s.id == idToSave
    let timestampToUse := match isAutoSave, existingStudy with
      | true, some e => e.timestamp
      | _, _ => now
    let newStudy : SavedStudy :=
      { id := idToSave
        name := nameToSave
        timestamp := timestampToUse
        items := (st.results.getD []).map fun item => { item with isNew := false }
        contextText := st.contextText
        fileName := st.fileData.map fun f => f.name }
    ⟨some newStudy, st.results⟩

/-- A freshly merged record still carrying the `isNew` tag. -/
def newFlaggedItem : RCMItem := { sampleRCMItem with isNew := true }

/-- A concrete `App` state holding one `isNew` record. -/
def saveStateC : AppSaveState :=
  { results := some [newFlaggedItem], contextText := "ctx", fileData := none,
    studyName := "S", currentStudyId := none, savedStudies := [] }

/-- The document `handleSaveStudy` stores for `saveStateC` at time 100. -/
def storedC : SavedStudy :=
  { id := "study-100", name := "S", timestamp := 100,
    items := [{ newFlaggedItem with isNew := false }], contextText := "ctx" }

/-- A record with an inspection sheet, for the C9 witness. -/
def sheetedItem : RCMItem :=
  { sampleRCMItem with
    id := "rcm-s",
    inspectionSheet := some
      { responsibility := "Operator", estimatedTime := "10m",
        safetyPrecautions := "Standard PPE", toolsRequired := "None",
        steps := [{ step := 1, description := "Check", criteria := "OK", technique := "Visual" }] } }

/-- The same record with an edited maintenance task (a critical change). -/
def editedSheetedItem : RCMItem := { sheetedItem with maintenanceTask := "Replace" }

/-! ## Export serialization (`src/components/AnalysisResult.tsx`
`handleCopy`, `handleClassicalCopy`)

Both exports map the identical escaping lambda over every cell:
`const str = String(val || ''); if (/[\t\n"]/.test(str)) return
'"' + str.replace(/"/g, '""') + '"'; return str;`, join cells with `"\t"`
and join the header row and all data rows with `"\n"`. -/

/-- The characters of the escaping test `/[\t\n"]/`. -/
def isSpecialChar (c : Char) : Bool := c = '\t' || c = '\n' || c = '"'

/-- `str.replace(/"/g, '""')`: double every double-quote character. -/
def dupQuotes (s : String) : String :=
  String.mk (s.data.flatMap fun c => if c = '"' then ['"', '"'] else [c])

/-- `String(val || '')` for a numeric cell: 0 is falsy and prints as `""`. -/
def cellOfInt (n : Int) : String := if n = 0 then "" else toString n

/-- The per-cell escaping lambda shared by both export handlers. -/
def escCell (v : String) : String :=
  if v.data.any isSpecialChar then "\"" ++ dupQuotes v ++ "\"" else v

/-- The flat export's header cells. -/
def flatHeaders : List String :=
  ["Component", "Function", "Functional Failure", "Failure Mode", "Effect",
   "Consequence Cat.", "ISO 14224 Code", "Criticality", "S", "O", "D", "RPN",
   "Proposed Task", "Interval", "Task Type",
   "Step #", "Action", "Method/Technique", "Acceptance Criteria"]

/-- `handleCopy`'s `baseRow`, repeated on every row of a record. -/
def flatBaseCells (item : RCMItem) : List String :=
  [item.component, item.function, item.functionalFailure, item.failureMode,
   item.failureEffect, item.consequenceCategory, item.iso14224Code,
   item.criticality, cellOfInt item.severity, cellOfInt item.occurrence,
   cellOfInt item.detection, cellOfInt item.rpn, item.maintenanceTask,
   item.interval, item.taskType]

/-- The flat export's rows for one record: one row per inspection step, or a
single row with the legacy/blank step fields. -/
def flatRowsFor (item : RCMItem) : List (List String) :=
  match item.inspectionSheet with
  | some sheet =>
      if sheet.steps.length > 0 then
        sheet.steps.map fun st =>
          flatBaseCells item ++ [cellOfInt st.step, st.description, st.technique, st.criteria]
      else
        [flatBaseCells item ++
          ["", jsOrStr sheet.checkPointDescription "", jsOrStr sheet.sheetType "",
           jsOrStr sheet.criteriaLimits ""]]
  | none => [flatBaseCells item ++ ["", "", "", ""]]

/-- `handleCopy`: header row then all data rows, cells escaped and joined by
tabs, rows joined by newlines. -/
def handleCopyText (view : List RCMItem) : String :=
  String.intercalate "\n"
    (String.intercalate "\t" flatHeaders ::
      (view.flatMap flatRowsFor).map fun cells =>
        String.intercalate "\t" (cells.map escCell))

/-- The classical export's header cells. -/
def classicalHeaders : List String :=
  ["Component", "Failure mode", "Proposed Task", "Frequency", "Type of task",
   "Step number", "Actions"]

/-- `handleClassicalCopy`'s row construction, threading `lastComponent` (the
run-length suppression of repeated component names); failure-mode and task
columns are shown only on the first step row of each record. -/
def classicalRowsGo : String → List RCMItem → List (List String)
  | _, [] => []
  | lastComponent, item :: rest =>
      let componentToShow := if item.component == lastComponent then "" else item.component
      let baseInfo := [componentToShow, item.failureMode, item.maintenanceTask,
        item.interval, item.taskType]
      let rowsFor := match item.inspectionSheet with
        | some sheet =>
            if sheet.steps.length > 0 then
              sheet.steps.enum.map fun pr =>
                if pr.1 = 0 then baseInfo ++ [cellOfInt pr.2.step, pr.2.description]
                else ["", "", "", "", "", cellOfInt pr.2.step, pr.2.description]
            else [baseInfo ++ ["", ""]]
        | none => [baseInfo ++ ["", ""]]
      rowsFor ++ classicalRowsGo item.component rest

/-- `handleClassicalCopy`: header plus rows, escaped and joined as above. -/
def handleClassicalCopyText (view : List RCMItem) : String :=
  String.intercalate "\n"
    (String.intercalate "\t" classicalHeaders ::
      (classicalRowsGo "" view).map fun cells =>
        String.intercalate "\t" (cells.map escCell))

/-- An item whose failure mode contains a literal tab, for the C5 witness. -/
def tabbyItem : RCMItem := { sampleRCMItem with failureMode := "Wear\tdue to Cause" }

/-! ## The action-block parser (`src/components/AICopilot.tsx` `parseAIResponse`)

`parseAIResponse` scans the text with `/<ACTION>([\s\S]*?)<\/ACTION>/g`,
`JSON.parse`s each payload (a parse failure skips that block entirely — the
`cleanText.replace` sits inside the same `try`), turns each parsed object that
has a truthy `item` or `type === 'DELETE'` into a proposal, removes the first
occurrence of each successfully parsed block from the running clean text, and
finally trims.  `JSON.parse` is modelled below by a fuel-based recursive
descent parser over characters (numbers are stored by their integer part —
no claim inspects fractional payload values — and object member access keeps
the last duplicate key, as `JSON.parse` does). -/

/-- The JSON value universe as it matters to this program. -/
inductive Json where
  | null : Json
  | bool (b : Bool) : Json
  | num (n : Int) : Json
  | str (s : String) : Json
  | arr (elems : List Json) : Json
  | obj (fields : List (String × Json)) : Json

/-- JSON insignificant whitespace. -/
def isJsonWs (c : Char) : Bool := c = ' ' || c = '\t' || c = '\n' || c = '\r'

/-- Skip insignificant whitespace. -/
def skipWs (s : List Char) : List Char := s.dropWhile isJsonWs

/-- Hexadecimal digit value, for `\uXXXX` escapes. -/
def hexDigitVal (c : Char) : Option Nat :=
  if c.isDigit then some (c.toNat - 48)
  else if 'a' ≤ c && c ≤ 'f' then some (c.toNat - 87)
  else if 'A' ≤ c && c ≤ 'F' then some (c.toNat - 55)
  else none

/-- Body of a JSON string after the opening quote: returns the decoded
characters and the rest of the input after the closing quote.  Raw control
characters are rejected, escapes are decoded, exactly as `JSON.parse` does. -/
def jsonStringBody : Nat → List Char → Option (List Char × List Char)
  | 0, _ => none
  | fuel + 1, s =>
      match s with
      | [] => none
      | '"' :: rest => some ([], rest)
      | '\\' :: esc =>
          match esc with
          | '"' :: r => (jsonStringBody fuel r).map fun pr => ('"' :: pr.1, pr.2)
          | '\\' :: r => (jsonStringBody fuel r).map fun pr => ('\\' :: pr.1, pr.2)
          | '/' :: r => (jsonStringBody fuel r).map fun pr => ('/' :: pr.1, pr.2)
          | 'b' :: r => (jsonStringBody fuel r).map fun pr => (Char.ofNat 8 :: pr.1, pr.2)
          | 'f' :: r => (jsonStringBody fuel r).map fun pr => (Char.ofNat 12 :: pr.1, pr.2)
          | 'n' :: r => (jsonStringBody fuel r).map fun pr => ('\n' :: pr.1, pr.2)
          | 'r' :: r => (jsonStringBody fuel r).map fun pr => (Char.ofNat 13 :: pr.1, pr.2)
          | 't' :: r => (jsonStringBody fuel r).map fun pr => ('\t' :: pr.1, pr.2)
          | 'u' :: h1 :: h2 :: h3 :: h4 :: r =>
              match hexDigitVal h1, hexDigitVal h2, hexDigitVal h3, hexDigitVal h4 with
              | some v1, some v2, some v3, some v4 =>
                  (jsonStringBody fuel r).map fun pr =>
                    (Char.ofNat (((v1 * 16 + v2) * 16 + v3) * 16 + v4) :: pr.1, pr.2)
              | _, _, _, _ => none
          | _ => none
      | c :: rest =>
          if c.toNat < 32 then none
          else (jsonStringBody fuel rest).map fun pr => (c :: pr.1, pr.2)

/-- A JSON number token (sign, integer part with the no-leading-zero rule,
optional fraction and exponent, which are validated and then discarded — the
value kept is the integer part). -/
def jsonNumber (s : List Char) : Option (Json × List Char) :=
  let pr := match s with
    | '-' :: r => (true, r)
    | _ => (false, s)
  let neg := pr.1
  let s1 := pr.2
  match s1 with
  | [] => none
  | c :: _ =>
      if !c.isDigit then none
      else
        let digits := s1.takeWhile Char.isDigit
        let rest := s1.dropWhile Char.isDigit
        if digits.length > 1 && digits.head? == some '0' then none
        else
          let n : Int := digits.foldl (fun acc d => acc * 10 + ((d.toNat : Int) - 48)) 0
          let fr := match rest with
            | '.' :: r =>
                if (r.takeWhile Char.isDigit).isEmpty then (false, r)
                else (true, r.dropWhile Char.isDigit)
            | _ => (true, rest)
          if !fr.1 then none
          else
            let ex := match fr.2 with
              | e :: r =>
                  if e = 'e' || e = 'E' then
                    let r2 := match r with
                      | sgn :: rr => if sgn = '+' || sgn = '-' then rr else sgn :: rr
                      | [] => []
                    if (r2.takeWhile Char.isDigit).isEmpty then (false, r2)
                    else (true, r2.dropWhile Char.isDigit)
                  else (true, fr.2)
              | [] => (true, fr.2)
            if !ex.1 then none
            else some (.num (if neg then -n else n), ex.2)

mutual

/-- Parse one JSON value (fuel-bounded recursive descent). -/
def jsonValueF : Nat → List Char → Option (Json × List Char)
  | 0, _ => none
  | fuel + 1, s0 =>
      let s := skipWs s0
      match s with
      | '{' :: rest =>
          let rest1 := skipWs rest
          match rest1 with
          | '}' :: rest2 => some (.obj [], rest2)
          | _ =>
              match jsonMembersF fuel rest1 with
              | some (fields, rest2) => some (.obj fields, rest2)
              | none => none
      | '[' :: rest =>
          let rest1 := skipWs rest
          match rest1 with
          | ']' :: rest2 => some (.arr [], rest2)
          | _ =>
              match jsonElemsF fuel rest1 with
              | some (elems, rest2) => some (.arr elems, rest2)
              | none => none
      | '"' :: rest =>
          (jsonStringBody fuel rest).map fun pr => (.str (String.mk pr.1), pr.2)
      | 't' :: 'r' :: 'u' :: 'e' :: rest => some (.bool true, rest)
      | 'f' :: 'a' :: 'l' :: 's' :: 'e' :: rest => some (.bool false, rest)
      | 'n' :: 'u' :: 'l' :: 'l' :: rest => some (.null, rest)
      | _ => jsonNumber s

/-- Parse the members of an object (after `{`, first member expected). -/
def jsonMembersF : Nat → List Char → Option (List (String × Json) × List Char)
  | 0, _ => none
  | fuel + 1, s0 =>
      let s := skipWs s0
      match s with
      | '"' :: rest =>
          match jsonStringBody fuel rest with
          | none => none
          | some (key, rest2) =>
              match skipWs rest2 with
              | ':' :: rest4 =>
                  match jsonValueF fuel rest4 with
                  | none => none
                  | some (v, rest5) =>
                      match skipWs rest5 with
                      | ',' :: rest7 =>
                          match jsonMembersF fuel rest7 with
                          | none => none
                          | some (fields, rest8) => some ((String.mk key, v) :: fields, rest8)
                      | '}' :: rest7 => some ([(String.mk key, v)], rest7)
                      | _ => none
              | _ => none
      | _ => none

/-- Parse the elements of an array (after `[`, first element expected). -/
def jsonElemsF : Nat → List Char → Option (List Json × List Char)
  | 0, _ => none
  | fuel + 1, s =>
      match jsonValueF fuel s with
      | none => none
      | some (v, rest) =>
          match skipWs rest with
          | ',' :: rest3 =>
              match jsonElemsF fuel rest3 with
              | none => none
              | some (elems, rest4) => some (v :: elems, rest4)
          | ']' :: rest3 => some ([v], rest3)
          | _ => none

end

/-- `JSON.parse` on a character list: parse one value and require only
whitespace to remain. -/
def parseJson (s : List Char) : Option Json :=
  match jsonValueF (s.length + 1) s with
  | some (v, rest) => if (skipWs rest).isEmpty then some v else none
  | none => none

/-- JS member access `j.key` (object fields only; `JSON.parse` keeps the last
duplicate key, hence the reverse search). -/
def jsonGet (j : Json) (key : String) : Option Json :=
  match j with
  | .obj fields => (fields.reverse.find? fun f => f.1 == key).map fun f => f.2
  | _ => none

/-- JS truthiness of a parsed JSON value. -/
def jsonTruthy : Json → Bool
  | .null => false
  | .bool b => b
  | .num n => n != 0
  | .str s => s != ""
  | .arr _ => true
  | .obj _ => true

/-- `a && typeof a === 'object'` for a parsed value (arrays included,
`null` excluded by the truthiness conjunct). -/
def jsonObjLike : Json → Bool
  | .obj _ => true
  | .arr _ => true
  | _ => false

/-- The qualification test of `parseAIResponse`:
`a && typeof a === 'object' && (a.item || a.type === 'DELETE')`. -/
def qualifiesAsProposal (a : Json) : Bool :=
  jsonObjLike a &&
    ((match jsonGet a "item" with
      | some v => jsonTruthy v
      | none => false) ||
     (match jsonGet a "type" with
      | some (.str t) => t == "DELETE"
      | _ => false))

/-- A proposal as pushed by `parseAIResponse` (the synthetic random `id` and
`applied: false` bookkeeping fields are UI correlation data and are omitted);
`item` is `a.item || {}`. -/
structure JsonProposal where
  action : Json
  item : Json

/-- The proposals contributed by one parsed payload: a single object or an
array thereof, each element kept iff it qualifies. -/
def mkProposals (j : Json) : List JsonProposal :=
  let actions := match j with
    | .arr l => l
    | _ => [j]
  actions.filterMap fun a =>
    if qualifiesAsProposal a then
      some { action := a
             item := match jsonGet a "item" with
               | some v => if jsonTruthy v then v else .obj []
               | none => .obj [] }
    else none

/-- The opening marker `<ACTION>`. -/
def openMarker : List Char := "<ACTION>".data

/-- The closing marker `</ACTION>`. -/
def closeMarker : List Char := "</ACTION>".data

/-- One step of the global regex scan: the first
`<ACTION>([\s\S]*?)</ACTION>` match, returned as (whole match, payload) plus
the input remaining after the match. -/
def nextBlock (s : List Char) : Option ((List Char × List Char) × List Char) :=
  match firstSplit openMarker s with
  | none => none
  | some (_, afterOpen) =>
      match firstSplit closeMarker afterOpen with
      | none => none
      | some (payload, rest) =>
          some ((openMarker ++ payload ++ closeMarker, payload), rest)

/-- All matches of the global regex, in document order (fuel-bounded so the
definition evaluates in the kernel). -/
def scanBlocksF : Nat → List Char → List (List Char × List Char)
  | 0, _ => []
  | fuel + 1, s =>
      match nextBlock s with
      | none => []
      | some (blk, rest) => blk :: scanBlocksF fuel rest

/-- All `<ACTION>` blocks of a text. -/
def scanActionBlocks (s : List Char) : List (List Char × List Char) :=
  scanBlocksF s.length s

/-- JS `text.replace(literal, '')`: remove the first occurrence, if any. -/
def replaceFirstRemove (s pat : List Char) : List Char :=
  match firstSplit pat s with
  | none => s
  | some (a, b) => a ++ b

/-- JS `String.prototype.trim` on characters. -/
def jsTrimL (l : List Char) : List Char :=
  ((l.dropWhile Char.isWhitespace).reverse.dropWhile Char.isWhitespace).reverse

/-- The result of `parseAIResponse` (clean text plus extracted proposals). -/
structure ParsedResponse where
  cleanText : List Char
  proposals : List JsonProposal

/-- `parseAIResponse`: scan all blocks, and for each block whose payload
parses, collect its qualifying proposals and remove the block's first
occurrence from the running clean text; a payload that fails to parse is
skipped entirely (its block text is left in place); finally trim. -/
def parseAIResponse (text : List Char) : ParsedResponse :=
  let blocks := scanActionBlocks text
  let st := blocks.foldl
    (fun (st : List Char × List JsonProposal) blk =>
      match parseJson blk.2 with
      | some j => (replaceFirstRemove st.1 blk.1, st.2 ++ mkProposals j)
      | none => st)
    (text, [])
  { cleanText := jsTrimL st.1, proposals := st.2 }

/-- A well-formed block around a payload. -/
def blockChars (p : List Char) : List Char := openMarker ++ p ++ closeMarker

/-- C3 counterexample input: two parseable blocks (each yielding one proposal)
around one block whose payload is not JSON. -/
def payloadGood1 : List Char := "\x7b\"item\": 1\x7d".data

/-- Second well-formed payload (qualifies through `type: DELETE`). -/
def payloadGood2 : List Char := "\x7b\"type\": \"DELETE\"\x7d".data

/-- The malformed payload (fails `JSON.parse`). -/
def payloadBad : List Char := "oops".data

/-- The concrete three-block text. -/
def sampleText : List Char :=
  "Hello ".data ++ blockChars payloadGood1 ++ " mid ".data ++
    blockChars payloadGood2 ++ " tail ".data ++ blockChars payloadBad ++ " end".data

lemma applyUndos_succ_eq (n : Nat) (st : UndoState) :
    applyUndos st (n + 1) = handleUndo (applyUndos st n) := by
  induction n generalizing st with
  | zero => rfl
  | succ m ih => exact ih (handleUndo st)

lemma handleResultsUpdate_some (st : UndoState) (d newData : List RCMItem)
    (hres : st.results = some d) (hlen : st.history.length ≤ 29) :
    handleResultsUpdate st newData =
      ⟨some newData, st.history ++ [d]⟩ := by
  simp only [handleResultsUpdate, hres]
  have : st.history.length - 29 = 0 := Nat.sub_eq_zero_of_le hlen
  simp [this]

lemma applyUndos_applyUpdates (ds : List (List RCMItem)) (st : UndoState)
    (d : List RCMItem) (hres : st.results = some d)
    (hlen : st.history.length + ds.length ≤ 30) :
    applyUndos (applyUpdates st ds) ds.length = st := by
  induction ds generalizing st d with
  | nil =>
      simp [applyUpdates, applyUndos]
  | cons x ds ih =>
      have hle : st.history.length ≤ 29 := by
        have := hlen
        simp only [List.length_cons] at this
        omega
      have hstep : handleResultsUpdate st x = ⟨some x, st.history ++ [d]⟩ :=
        handleResultsUpdate_some st d x hres hle
      have hupd : applyUpdates st (x :: ds) =
          applyUpdates ⟨some x, st.history ++ [d]⟩ ds := by
        simp [applyUpdates, hstep]
      have hlen2 : (st.history ++ [d]).length + ds.length ≤ 30 := by
        simp only [List.length_append, List.length_singleton]
        simp only [List.length_cons] at hlen
        omega
      have hih : applyUndos (applyUpdates ⟨some x, st.history ++ [d]⟩ ds) ds.length =
          ⟨some x, st.history ++ [d]⟩ := ih ⟨some x, st.history ++ [d]⟩ x rfl hlen2
      have hundo : handleUndo (⟨some x, st.history ++ [d]⟩ : UndoState) =
          ⟨some d, st.history⟩ := by
        simp [handleUndo, List.getLast?_concat, List.dropLast_concat]
      calc applyUndos (applyUpdates st (x :: ds)) (x :: ds).length
          = applyUndos (applyUpdates ⟨some x, st.history ++ [d]⟩ ds) (ds.length + 1) := by
            rw [hupd, List.length_cons]
        _ = handleUndo (applyUndos (applyUpdates ⟨some x, st.history ++ [d]⟩ ds) ds.length) :=
            applyUndos_succ_eq _ _
        _ = handleUndo (⟨some x, st.history ++ [d]⟩ : UndoState) := by rw [hih]
        _ = ⟨some d, st.history⟩ := hundo
        _ = st := by
            cases st with
            | mk r h => simp at hres; simp [hres]

set_option maxRecDepth 100000 in
/-- C4: starting from any dataset (with a fresh history), N caller-initiated
mutations through `handleResultsUpdate` followed by N `handleUndo` calls restore
the exact pre-mutation dataset whenever N ≤ 30; for N = 31 the earliest
mutation's pre-state is lost (the bounded stack drops the oldest snapshot) and
the 31 undos instead land on the state produced by the first mutation; and an
undo on an empty stack is a no-op. -/
theorem c4_bounded_undo :
    (∀ (d0 : List RCMItem) (ds : List (List RCMItem)), ds.length ≤ 30 →
        applyUndos (applyUpdates ⟨some d0, []⟩ ds) ds.length = ⟨some d0, []⟩)
    ∧ ((applyUndos
          (applyUpdates ⟨some (mkDataset 31), []⟩ ((List.range 31).map mkDataset))
          31).results = some (mkDataset 0)
        ∧ mkDataset 0 ≠ mkDataset 31)
    ∧ (∀ st : UndoState, st.history = [] → handleUndo st = st) := by
  refine ⟨?_, ⟨?_, ?_⟩, ?_⟩
  · intro d0 ds hds
    exact applyUndos_applyUpdates ds ⟨some d0, []⟩ d0 rfl (by simpa using hds)
  · decide
  · decide
  · intro st hst
    simp [handleUndo, hst]

/-- Witness for `c4_bounded_undo`: one mutation followed by one undo restores
the concrete singleton dataset. -/
theorem c4_bounded_undo_witness :
    applyUndos (applyUpdates ⟨some [sampleRCMItem], []⟩ [[]]) 1 =
      ⟨some [sampleRCMItem], []⟩ :=
  c4_bounded_undo.1 [sampleRCMItem] [[]] (by decide)

/-- C10: the public update entry point pushes a snapshot only when the current
dataset is non-null (an update from the empty state leaves the stack untouched),
and undo never returns the application to the empty pre-first-generation state:
once `results` is non-null it stays non-null under any number of undos. -/
theorem c10_first_population_not_undoable :
    (∀ (h : List (List RCMItem)) (d : List RCMItem),
        handleResultsUpdate ⟨none, h⟩ d = ⟨some d, h⟩)
    ∧ (∀ st : UndoState, st.results.isSome → ((handleUndo st).results).isSome)
    ∧ (∀ (st : UndoState) (k : Nat),
        st.results.isSome → ((applyUndos st k).results).isSome) := by
  have hundo : ∀ st : UndoState, st.results.isSome → ((handleUndo st).results).isSome := by
    intro st hst
    unfold handleUndo
    cases hl : st.history.getLast? with
    | none => simpa using hst
    | some lastState => simp
  refine ⟨?_, hundo, ?_⟩
  · intro h d
    simp [handleResultsUpdate]
  · intro st k
    induction k generalizing st with
    | zero => intro hst; simpa [applyUndos] using hst
    | succ m ih =>
        intro hst
        exact ih (handleUndo st) (hundo st hst)

/-- Witness for `c10_first_population_not_undoable` at a concrete state. -/
theorem c10_first_population_not_undoable_witness :
    ((handleUndo ⟨some [], [[sampleRCMItem]]⟩).results).isSome :=
  c10_first_population_not_undoable.2.1 ⟨some [], [[sampleRCMItem]]⟩ rfl

/-- `Option.getD` collapses under repetition. -/
lemma getD_getD {α : Type} (o : Option α) (a : α) : o.getD (o.getD a) = o.getD a := by
  cases o <;> rfl

/-- C1 counterexample: neither normalization path clamps.  A batch item with
severity 15 keeps severity 15 (outside [1,10]) and gets `rpn = 15*5*6 = 450`,
not the clamped product `10*5*6 = 300`; the ADD path behaves the same way. -/
theorem c1_counterexample :
    (normalizeGenItem "id0"
        { severity := some 15, occurrence := some 5, detection := some 6 }).severity = 15
    ∧ ¬ (1 ≤ (normalizeGenItem "id0"
        { severity := some 15, occurrence := some 5, detection := some 6 }).severity
        ∧ (normalizeGenItem "id0"
        { severity := some 15, occurrence := some 5, detection := some 6 }).severity ≤ 10)
    ∧ (normalizeGenItem "id0"
        { severity := some 15, occurrence := some 5, detection := some 6 }).rpn = 450
    ∧ (normalizeGenItem "id0"
        { severity := some 15, occurrence := some 5, detection := some 6 }).rpn ≠
        specClamp 15 * specClamp 5 * specClamp 6
    ∧ (buildAddItem "id1" { severity := some 15, occurrence := some 4, detection := some 7 }).severity = 15
    ∧ (buildAddItem "id1" { severity := some 15, occurrence := some 4, detection := some 7 }).rpn = 420
    ∧ (buildAddItem "id1" { severity := some 15, occurrence := some 4, detection := some 7 }).rpn ≠
        specClamp 15 * specClamp 4 * specClamp 7 := by
  decide

/-- C1 (amended): after batch-generation normalization and after ADD-proposal
application, a record's stored severity/occurrence/detection are the input
values with falsy (missing or zero) scores replaced by the documented defaults
(8/5/6 for batch generation, 5/3/3 for ADD), and `rpn` always equals the plain
product of the three stored values; the scores are *not* clamped to [1,10] —
out-of-range inputs are stored as-is. -/
theorem c1_rpn_is_product_of_stored_scores :
    (∀ (newId : String) (item : RawGenItem),
        (normalizeGenItem newId item).severity = jsOrNum item.severity 8
        ∧ (normalizeGenItem newId item).occurrence = jsOrNum item.occurrence 5
        ∧ (normalizeGenItem newId item).detection = jsOrNum item.detection 6
        ∧ (normalizeGenItem newId item).rpn =
            (normalizeGenItem newId item).severity *
            (normalizeGenItem newId item).occurrence *
            (normalizeGenItem newId item).detection
        ∧ (normalizeGenItem newId item).isNew = true)
    ∧ (∀ (newId : String) (p : PartialRCMItem),
        (buildAddItem newId p).severity = jsOrNum p.severity 5
        ∧ (buildAddItem newId p).occurrence = jsOrNum p.occurrence 3
        ∧ (buildAddItem newId p).detection = jsOrNum p.detection 3
        ∧ (buildAddItem newId p).rpn =
            (buildAddItem newId p).severity *
            (buildAddItem newId p).occurrence *
            (buildAddItem newId p).detection
        ∧ (buildAddItem newId p).isNew = true) := by
  constructor
  · intro newId item
    refine ⟨rfl, rfl, rfl, rfl, rfl⟩
  · intro newId p
    refine ⟨rfl, rfl, rfl, rfl, rfl⟩

/-- C2 counterexample: an UPDATE without an `id` whose `component` matches two
records rewrites *both* of them, not just the first — the second record is also
replaced by its merge, contradicting "exactly that one record is replaced". -/
theorem c2_counterexample :
    (applyUpdateProposal [recMotorA, recMotorB] componentOnlyUpdate)[1]? =
      some (mergeUpdate recMotorB componentOnlyUpdate)
    ∧ mergeUpdate recMotorB componentOnlyUpdate ≠ recMotorB
    ∧ (applyUpdateProposal [recMotorA, recMotorB] componentOnlyUpdate)[1]? ≠
      some recMotorB := by
  decide

/-- C2 (amended): an UPDATE proposal resolves its targets by `item.id` when a
non-empty id is present; with no usable id it matches *every* record whose
`component` equals `item.component` (not only the first); with no match the
dataset is unchanged; and each matched record is replaced, positionally, by the
shallow merge of the proposal's present fields over it, with `rpn` recomputed
from the merged scores and `isNew` set to false. -/
theorem c2_update_semantics :
    ∀ (data : List RCMItem) (p : PartialRCMItem),
      ((∀ r ∈ data, updateMatches p r = false) → applyUpdateProposal data p = data)
      ∧ (∀ i : String, p.id = some i → i ≠ "" →
          ∀ r : RCMItem, updateMatches p r = (r.id == i))
      ∧ (p.id = none → ∀ c : String, p.component = some c →
          ∀ r : RCMItem, updateMatches p r = (r.component == c))
      ∧ (∀ k : Nat, (applyUpdateProposal data p)[k]? =
          (data[k]?).map fun r => if updateMatches p r then mergeUpdate r p else r)
      ∧ (∀ r : RCMItem,
          (mergeUpdate r p).severity = p.severity.getD r.severity
          ∧ (mergeUpdate r p).occurrence = p.occurrence.getD r.occurrence
          ∧ (mergeUpdate r p).detection = p.detection.getD r.detection
          ∧ (mergeUpdate r p).rpn =
              (mergeUpdate r p).severity * (mergeUpdate r p).occurrence *
              (mergeUpdate r p).detection
          ∧ (mergeUpdate r p).isNew = false) := by
  intro data p
  refine ⟨?_, ?_, ?_, ?_, ?_⟩
  · intro hnone
    unfold applyUpdateProposal
    conv_rhs => rw [← List.map_id data]
    refine List.map_congr_left ?_
    intro r hr
    simp [hnone r hr]
  · intro i hi hne r
    simp [updateMatches, hi, hne]
  · intro hid c hc r
    simp [updateMatches, hid, hc]
  · intro k
    simp [applyUpdateProposal]
  · intro r
    refine ⟨rfl, rfl, rfl, rfl, rfl⟩

/-- Witness for `c2_update_semantics`: a proposal matching nothing leaves a
concrete dataset unchanged. -/
theorem c2_update_semantics_witness :
    applyUpdateProposal [recMotorA] { id := some "zz" } = [recMotorA] :=
  (c2_update_semantics [recMotorA] { id := some "zz" }).1 (by decide)

/-- A matched record still matches after merging (the merge rewrites `id` and
`component` with the very values the match test compared against). -/
lemma updateMatches_mergeUpdate (p : PartialRCMItem) (r : RCMItem)
    (h : updateMatches p r = true) :
    updateMatches p (mergeUpdate r p) = true := by
  unfold updateMatches at h ⊢
  cases hid : p.id with
  | some i =>
      by_cases hne : i = ""
      · subst hne
        cases hc : p.component with
        | some c =>
            simp [hid, hc] at h
            simp [hid, hc, mergeUpdate, h]
        | none => simp [hid, hc] at h
      · simp [hid, hne] at h
        simp [hid, hne, mergeUpdate, h]
  | none =>
      cases hc : p.component with
      | some c =>
          simp [hid, hc] at h
          simp [hid, hc, mergeUpdate, h]
      | none => simp [hid, hc] at h

/-- Merging twice with the same proposal is the same as merging once. -/
lemma mergeUpdate_idem (p : PartialRCMItem) (r : RCMItem) :
    mergeUpdate (mergeUpdate r p) p = mergeUpdate r p := by
  unfold mergeUpdate
  cases p.inspectionSheet <;> cases p.componentIntel <;>
    simp [getD_getD]

/-- C6: applying the same UPDATE proposal twice yields the same final dataset
as applying it once — `applyUpdateProposal` is idempotent. -/
theorem c6_update_idempotent :
    ∀ (data : List RCMItem) (p : PartialRCMItem),
      applyUpdateProposal (applyUpdateProposal data p) p =
        applyUpdateProposal data p := by
  intro data p
  unfold applyUpdateProposal
  rw [List.map_map]
  refine List.map_congr_left ?_
  intro r _
  by_cases h : updateMatches p r = true
  · simp only [Function.comp_apply, h, if_true]
    rw [if_pos (updateMatches_mergeUpdate p r h), mergeUpdate_idem]
  · have h' : updateMatches p r = false := by
      cases hm : updateMatches p r
      · rfl
      · exact absurd hm h
    simp only [Function.comp_apply, h', if_false]
    rw [if_neg (by simp [h'])]

/-- C7 counterexample: after an explicit save the stored copies have `isNew`
cleared, but the in-memory dataset still carries `isNew = true` — the
application state is *not* updated by the save. -/
theorem c7_counterexample :
    (handleSaveStudy false 100 saveStateC).resultsAfter = some [newFlaggedItem]
    ∧ newFlaggedItem.isNew = true
    ∧ (handleSaveStudy false 100 saveStateC).stored = some storedC := by
  decide

/-- C7 (amended): every record handed to the Study Store by a save has
`isNew = false`, but the in-memory dataset held by the application is left
unchanged by the save (its `isNew` flags are not cleared). -/
theorem c7_save_clears_flags_only_in_store :
    ∀ (isAutoSave : Bool) (now : Nat) (st : AppSaveState) (study : SavedStudy),
      (handleSaveStudy isAutoSave now st).stored = some study →
      (∀ r ∈ study.items, r.isNew = false)
      ∧ (handleSaveStudy isAutoSave now st).resultsAfter = st.results := by
  intro isAutoSave now st study hstored
  unfold handleSaveStudy at hstored ⊢
  by_cases hguard : (st.results.isNone && st.contextText == "" && st.fileData.isNone) = true
  · rw [if_pos hguard] at hstored
    exact absurd hstored (by simp)
  · rw [if_neg hguard] at hstored ⊢
    simp only [Option.some.injEq] at hstored
    subst hstored
    refine ⟨?_, rfl⟩
    intro r hr
    simp only [List.mem_map] at hr
    obtain ⟨a, _, rfl⟩ := hr
    rfl

/-- Witness for `c7_save_clears_flags_only_in_store` at the concrete state. -/
theorem c7_save_clears_flags_only_in_store_witness :
    (∀ r ∈ storedC.items, r.isNew = false)
    ∧ (handleSaveStudy false 100 saveStateC).resultsAfter = saveStateC.results :=
  c7_save_clears_flags_only_in_store false 100 saveStateC storedC (by decide)

/-- C8 counterexample: when the clicked cell is *already* the active filter,
clicking it twice re-activates the filter instead of leaving the view
unfiltered — so the claim fails for that starting state. -/
theorem c8_counterexample :
    handleMatrixClick (handleMatrixClick (some (3, 4)) 3 4) 3 4 = some (3, 4)
    ∧ (some ((3 : Int), (4 : Int)) : Option (Int × Int)) ≠ none := by
  decide

/-- C8 (amended): toggling an active matrix filter clears it, and from any
state in which the clicked cell is not already the active filter, two clicks on
the same cell return to the no-matrix-filter state; with no matrix filter (and
no other filter active) the projected view is the unfiltered dataset. -/
theorem c8_matrix_toggle :
    (∀ s o : Int, handleMatrixClick (some (s, o)) s o = none)
    ∧ (∀ (mf : Option (Int × Int)) (s o : Int), mf ≠ some (s, o) →
        handleMatrixClick (handleMatrixClick mf s o) s o = none)
    ∧ (∀ data : List RCMItem, applyFilterSteps none none {} data = data) := by
  refine ⟨?_, ?_, ?_⟩
  · intro s o
    simp [handleMatrixClick]
  · intro mf s o hne
    have h1 : handleMatrixClick mf s o = some (s, o) := by
      cases mf with
      | none => rfl
      | some p =>
          obtain ⟨s', o'⟩ := p
          have : ¬ (s' == s && o' == o) = true := by
            intro hb
            simp only [Bool.and_eq_true, beq_iff_eq] at hb
            exact hne (by rw [hb.1, hb.2])
          simp [handleMatrixClick, this]
    rw [h1]
    simp [handleMatrixClick]
  · intro data
    simp [applyFilterSteps, SearchFilters.component]

/-- Witness for `c8_matrix_toggle`: double-click from the unfiltered state. -/
theorem c8_matrix_toggle_witness :
    handleMatrixClick (handleMatrixClick none 3 4) 3 4 = none :=
  c8_matrix_toggle.2.1 none 3 4 (by decide)

/-- C9: saving an inline edit of a record that has an inspection sheet removes
the sheet from the committed record exactly when the edit changed the
component, failure mode or maintenance task (otherwise the sheet is retained
unchanged), and the committed record's `rpn` is the product of the edited
scores with falsy scores treated as 1.  The hypotheses reflect how `handleEdit`
initializes the form: it copies the record, and neither `id` nor
`inspectionSheet` is editable in the inline form. -/
theorem c9_edit_save_sheet_invalidation :
    ∀ (data : List RCMItem) (editingId : String) (editForm originalItem : RCMItem),
      data.find? (fun d => d.id == editingId) = some originalItem →
      editForm.id = editingId →
      editForm.inspectionSheet = originalItem.inspectionSheet →
      originalItem.inspectionSheet.isSome = true →
      ((editForm.component ≠ originalItem.component ∨
          editForm.failureMode ≠ originalItem.failureMode ∨
          editForm.maintenanceTask ≠ originalItem.maintenanceTask) →
        ∀ r ∈ handleSaveEdit data editingId editForm, r.id = editingId →
          r.inspectionSheet = none)
      ∧ ((editForm.component = originalItem.component ∧
          editForm.failureMode = originalItem.failureMode ∧
          editForm.maintenanceTask = originalItem.maintenanceTask) →
        ∀ r ∈ handleSaveEdit data editingId editForm, r.id = editingId →
          r.inspectionSheet = originalItem.inspectionSheet)
      ∧ (∀ r ∈ handleSaveEdit data editingId editForm, r.id = editingId →
          r.rpn = jsOrInt editForm.severity 1 * jsOrInt editForm.occurrence 1 *
            jsOrInt editForm.detection 1) := by
  intro data editingId editForm originalItem hfind heid hsheet hsome
  refine ⟨?_, ?_, ?_⟩
  · intro hchanged r hr hrid
    simp only [handleSaveEdit, hfind, List.mem_map] at hr
    obtain ⟨a, -, rfl⟩ := hr
    by_cases hmatch : (a.id == editingId) = true
    · have hcrit : (editForm.maintenanceTask != originalItem.maintenanceTask ||
          editForm.failureMode != originalItem.failureMode ||
          editForm.component != originalItem.component) = true := by
        rcases hchanged with h | h | h <;> simp [bne_iff_ne, h]
      simp [hmatch, hcrit, hsome]
    · rw [if_neg hmatch] at hrid
      exact absurd (by simp [hrid] : (a.id == editingId) = true) hmatch
  · intro hsame r hr hrid
    simp only [handleSaveEdit, hfind, List.mem_map] at hr
    obtain ⟨a, -, rfl⟩ := hr
    by_cases hmatch : (a.id == editingId) = true
    · have hcrit : (editForm.maintenanceTask != originalItem.maintenanceTask ||
          editForm.failureMode != originalItem.failureMode ||
          editForm.component != originalItem.component) = false := by
        simp [bne_iff_ne, hsame.1, hsame.2.1, hsame.2.2]
      simp [hmatch, hcrit, hsheet]
    · rw [if_neg hmatch] at hrid
      exact absurd (by simp [hrid] : (a.id == editingId) = true) hmatch
  · intro r hr hrid
    simp only [handleSaveEdit, hfind, List.mem_map] at hr
    obtain ⟨a, -, rfl⟩ := hr
    by_cases hmatch : (a.id == editingId) = true
    · simp [hmatch]
    · rw [if_neg hmatch] at hrid
      exact absurd (by simp [hrid] : (a.id == editingId) = true) hmatch

/-- Witness for `c9_edit_save_sheet_invalidation`: a critical edit on a
sheeted record commits it with the sheet removed. -/
theorem c9_edit_save_sheet_invalidation_witness :
    ((handleSaveEdit [sheetedItem] "rcm-s" editedSheetedItem).getD 0
        sampleRCMItem).inspectionSheet = none :=
  (c9_edit_save_sheet_invalidation [sheetedItem] "rcm-s" editedSheetedItem sheetedItem
      (by decide) (by decide) (by decide) (by decide)).1
    (Or.inr (Or.inr (by decide)))
    ((handleSaveEdit [sheetedItem] "rcm-s" editedSheetedItem).getD 0 sampleRCMItem)
    (by decide) (by decide)

/-- C5: in both export formats every cell goes through the same rule — text
with a tab, newline or double-quote is wrapped in double quotes with internal
quotes doubled (so the emitted cell begins and ends with a quote and any tab
sits inside the quoted region), other text is emitted verbatim; cells are
joined by tabs and rows by newlines; and the failure-mode column (index 3 flat,
index 1 classical, present on the first row of a record's block) carries the
record's `failureMode`, so a tab inside it yields exactly such a quoted cell. -/
theorem c5_export_escaping :
    ∀ (v : String) (item : RCMItem) (view : List RCMItem) (lc : String),
      (v.data.any isSpecialChar = false → escCell v = v)
      ∧ (v.data.any isSpecialChar = true →
          escCell v = "\"" ++ dupQuotes v ++ "\""
          ∧ (escCell v).data.head? = some '"'
          ∧ (escCell v).data.getLast? = some '"')
      ∧ handleCopyText view = String.intercalate "\n"
          (String.intercalate "\t" flatHeaders ::
            (view.flatMap flatRowsFor).map fun cells =>
              String.intercalate "\t" (cells.map escCell))
      ∧ handleClassicalCopyText view = String.intercalate "\n"
          (String.intercalate "\t" classicalHeaders ::
            (classicalRowsGo "" view).map fun cells =>
              String.intercalate "\t" (cells.map escCell))
      ∧ (∀ row ∈ flatRowsFor item, row.get? 3 = some item.failureMode)
      ∧ (∃ row rest, classicalRowsGo lc [item] = row :: rest
          ∧ row.get? 1 = some item.failureMode) := by
  intro v item view lc
  refine ⟨?_, ?_, rfl, rfl, ?_, ?_⟩
  · intro h
    simp [escCell, h]
  · intro h
    refine ⟨by simp [escCell, h], ?_, ?_⟩
    · simp [escCell, h, String.data_append]
    · simp only [escCell, h, if_true]
      have : ("\"" ++ dupQuotes v ++ "\"").data = ("\"" ++ dupQuotes v).data ++ ['"'] := by
        simp [String.data_append]
      rw [this, List.getLast?_concat]
  · intro row hrow
    unfold flatRowsFor at hrow
    split at hrow
    · split at hrow
      · simp only [List.mem_map] at hrow
        obtain ⟨st, -, rfl⟩ := hrow
        rfl
      · simp only [List.mem_singleton] at hrow
        subst hrow
        rfl
    · simp only [List.mem_singleton] at hrow
      subst hrow
      rfl
  · unfold classicalRowsGo
    dsimp only
    split
    · rename_i sheet heq
      split
      · rename_i hsteps
        cases hst : sheet.steps with
        | nil => rw [hst] at hsteps; simp at hsteps
        | cons s0 srest =>
            simp only [List.enum_cons, List.map_cons, List.cons_append]
            exact ⟨_, _, rfl, rfl⟩
      · exact ⟨_, _, rfl, rfl⟩
    · exact ⟨_, _, rfl, rfl⟩

/-- Witness for `c5_export_escaping`: a failure mode containing a tab is
emitted as a quote-wrapped cell. -/
theorem c5_export_escaping_witness :
    escCell tabbyItem.failureMode = "\"" ++ dupQuotes tabbyItem.failureMode ++ "\""
    ∧ (escCell tabbyItem.failureMode).data.head? = some '"'
    ∧ (escCell tabbyItem.failureMode).data.getLast? = some '"' :=
  (c5_export_escaping tabbyItem.failureMode tabbyItem [] "").2.1 (by decide)

/-- `firstSplit` is exact: a hit decomposes the input around the pattern. -/
lemma firstSplit_eq (pat s a b : List Char)
    (h : firstSplit pat s = some (a, b)) : s = a ++ pat ++ b := by
  induction s generalizing a with
  | nil =>
      simp only [firstSplit] at h
      by_cases hp : pat.isEmpty
      · rw [if_pos hp] at h
        obtain ⟨rfl, rfl⟩ : a = [] ∧ ([] : List Char) = b := by
          simpa using h
        simp [List.isEmpty_iff.mp hp]
      · rw [if_neg hp] at h
        exact absurd h (by simp)
  | cons c rest ih =>
      simp only [firstSplit] at h
      by_cases hpre : pat.isPrefixOf (c :: rest) = true
      · rw [if_pos hpre] at h
        obtain ⟨t, ht⟩ : ∃ t, pat ++ t = c :: rest :=
          (List.isPrefixOf_iff_prefix.mp hpre)
        obtain ⟨rfl, rfl⟩ : a = [] ∧ List.drop pat.length (c :: rest) = b := by
          simpa using h
        rw [← ht, List.drop_left, List.nil_append]
      · rw [if_neg hpre] at h
        rw [Option.map_eq_some'] at h
        obtain ⟨⟨a', b'⟩, hsplit, heq⟩ := h
        obtain ⟨rfl, rfl⟩ : c :: a' = a ∧ b' = b := by
          simpa using heq
        have := ih a' hsplit
        simp [this]

/-- A pattern starting with a character absent from the text never matches. -/
lemma firstSplit_none_of_no_head (c : Char) (p' s : List Char)
    (h : ∀ x ∈ s, x ≠ c) : firstSplit (c :: p') s = none := by
  induction s with
  | nil => rfl
  | cons x rest ih =>
      have hcx : (c == x) = false := by
        rw [beq_eq_false_iff_ne]
        exact Ne.symm (h x (by simp))
      have hpre : (c :: p').isPrefixOf (x :: rest) = false := by
        simp [List.isPrefixOf, hcx]
      simp only [firstSplit, hpre]
      rw [ih fun y hy => h y (by simp [hy])]
      rfl

/-- When the pattern's first character does not occur in `a`, the first match
of the pattern in `a ++ pattern ++ b` is exactly the explicit occurrence. -/
lemma firstSplit_boundary (c : Char) (p' a b : List Char)
    (h : ∀ x ∈ a, x ≠ c) :
    firstSplit (c :: p') (a ++ (c :: p') ++ b) = some (a, b) := by
  induction a with
  | nil =>
      have hshape : (([] : List Char) ++ (c :: p') ++ b) = c :: (p' ++ b) := rfl
      rw [hshape]
      have hpre : (c :: p').isPrefixOf (c :: (p' ++ b)) = true := by
        rw [List.isPrefixOf_iff_prefix]
        exact List.prefix_append (c :: p') b
      simp only [firstSplit, hpre, if_true]
      have hdrop : (c :: (p' ++ b)).drop (c :: p').length = b := by
        have e : (c :: (p' ++ b) : List Char) = (c :: p') ++ b := rfl
        rw [e, List.drop_left]
      rw [hdrop]
  | cons x a' ih =>
      have hx : x ≠ c := h x (by simp)
      have hshape : ((x :: a') ++ (c :: p') ++ b : List Char) =
          x :: (a' ++ (c :: p') ++ b) := by simp
      rw [hshape]
      have hcx : (c == x) = false := by
        rw [beq_eq_false_iff_ne]
        exact Ne.symm hx
      have hpre : (c :: p').isPrefixOf (x :: (a' ++ (c :: p') ++ b)) = false := by
        simp [List.isPrefixOf, hcx]
      simp only [firstSplit, hpre]
      rw [ih fun y hy => h y (by simp [hy])]
      rfl

/-- `nextBlock` at an explicit block whose lead-in and payload are free of
`'<'`: the block is found exactly there. -/
lemma nextBlock_boundary (a p b : List Char)
    (ha : ∀ x ∈ a, x ≠ '<') (hp : ∀ x ∈ p, x ≠ '<') :
    nextBlock (a ++ blockChars p ++ b) = some ((blockChars p, p), b) := by
  have h1 : firstSplit openMarker (a ++ blockChars p ++ b) =
      some (a, p ++ closeMarker ++ b) := by
    have e1 : (a ++ blockChars p ++ b : List Char) =
        a ++ openMarker ++ (p ++ closeMarker ++ b) := by
      simp [blockChars, List.append_assoc]
    rw [e1, show (openMarker : List Char) = '<' :: "ACTION>".data from rfl]
    exact firstSplit_boundary '<' "ACTION>".data a (p ++ closeMarker ++ b) ha
  have h2 : firstSplit closeMarker (p ++ closeMarker ++ b) = some (p, b) := by
    rw [show (closeMarker : List Char) = '<' :: "/ACTION>".data from rfl]
    exact firstSplit_boundary '<' "/ACTION>".data p b hp
  simp only [nextBlock, h1, h2]
  rfl

/-- A text without `'<'` has no block. -/
lemma nextBlock_no_open (s : List Char) (h : ∀ x ∈ s, x ≠ '<') :
    nextBlock s = none := by
  have h1 : firstSplit openMarker s = none := by
    rw [show (openMarker : List Char) = '<' :: "ACTION>".data from rfl]
    exact firstSplit_none_of_no_head '<' "ACTION>".data s h
  simp only [nextBlock, h1]

/-- Finding a block strictly shrinks the remaining input. -/
lemma nextBlock_shrinks (s : List Char) (blk : List Char × List Char)
    (rest : List Char) (h : nextBlock s = some (blk, rest)) :
    rest.length < s.length := by
  unfold nextBlock at h
  cases h1 : firstSplit openMarker s with
  | none => simp [h1] at h
  | some pr =>
      obtain ⟨pre, afterOpen⟩ := pr
      simp only [h1] at h
      cases h2 : firstSplit closeMarker afterOpen with
      | none => simp [h2] at h
      | some pr2 =>
          obtain ⟨payload, rest2⟩ := pr2
          simp only [h2, Option.some.injEq, Prod.mk.injEq] at h
          obtain ⟨-, rfl⟩ := h
          have e1 := firstSplit_eq _ _ _ _ h1
          have e2 := firstSplit_eq _ _ _ _ h2
          rw [e1, e2]
          have hopen : openMarker.length = 8 := rfl
          have hclose : closeMarker.length = 9 := rfl
          simp only [List.length_append, hopen, hclose]
          omega

/-- `scanBlocksF` is fuel-insensitive once the fuel covers the input length. -/
lemma scanBlocksF_congr (f1 : Nat) : ∀ (f2 : Nat) (s : List Char),
    s.length ≤ f1 → s.length ≤ f2 → scanBlocksF f1 s = scanBlocksF f2 s := by
  induction f1 with
  | zero =>
      intro f2 s hs1 _
      have : s = [] := List.length_eq_zero.mp (Nat.le_zero.mp hs1)
      subst this
      cases f2 with
      | zero => rfl
      | succ m => rfl
  | succ m ih =>
      intro f2 s hs1 hs2
      cases f2 with
      | zero =>
          have : s = [] := List.length_eq_zero.mp (Nat.le_zero.mp hs2)
          subst this
          rfl
      | succ m2 =>
          cases hnb : nextBlock s with
          | none =>
              show (match nextBlock s with
                | none => []
                | some (blk, rest) => blk :: scanBlocksF m rest) =
                (match nextBlock s with
                | none => []
                | some (blk, rest) => blk :: scanBlocksF m2 rest)
              rw [hnb]
          | some pr =>
              obtain ⟨blk, rest⟩ := pr
              have hlt := nextBlock_shrinks s blk rest hnb
              show (match nextBlock s with
                | none => []
                | some (blk, rest) => blk :: scanBlocksF m rest) =
                (match nextBlock s with
                | none => []
                | some (blk, rest) => blk :: scanBlocksF m2 rest)
              rw [hnb]
              show blk :: scanBlocksF m rest = blk :: scanBlocksF m2 rest
              rw [ih m2 rest (by omega) (by omega)]

/-- Unfolding `scanActionBlocks` at a found block. -/
lemma scanActionBlocks_cons (s : List Char) (blk : List Char × List Char)
    (rest : List Char) (h : nextBlock s = some (blk, rest)) :
    scanActionBlocks s = blk :: scanActionBlocks rest := by
  have hlt := nextBlock_shrinks s blk rest h
  obtain ⟨m, hm⟩ : ∃ m, s.length = m + 1 := ⟨s.length - 1, by omega⟩
  unfold scanActionBlocks
  rw [hm]
  show (match nextBlock s with
    | none => []
    | some (blk, rest) => blk :: scanBlocksF m rest) =
    blk :: scanBlocksF rest.length rest
  rw [h]
  show blk :: scanBlocksF m rest = blk :: scanBlocksF rest.length rest
  rw [scanBlocksF_congr m rest.length rest (by omega) (le_refl _)]

/-- Unfolding `scanActionBlocks` when there is no block. -/
lemma scanActionBlocks_nil (s : List Char) (h : nextBlock s = none) :
    scanActionBlocks s = [] := by
  unfold scanActionBlocks
  cases hs : s.length with
  | zero => rfl
  | succ m =>
      show (match nextBlock s with
        | none => []
        | some (blk, rest) => blk :: scanBlocksF m rest) = []
      rw [h]

/-- Removing an explicit block whose lead-in is `'<'`-free removes exactly it. -/
lemma replaceFirstRemove_boundary (a p b : List Char)
    (ha : ∀ x ∈ a, x ≠ '<') :
    replaceFirstRemove (a ++ blockChars p ++ b) (blockChars p) = a ++ b := by
  have h1 : firstSplit (blockChars p) (a ++ blockChars p ++ b) = some (a, b) := by
    rw [show (blockChars p : List Char) =
      '<' :: ("ACTION>".data ++ p ++ closeMarker) from rfl]
    exact firstSplit_boundary '<' ("ACTION>".data ++ p ++ closeMarker) a b ha
  simp only [replaceFirstRemove, h1]

/-- C3 counterexample: on a text with two well-formed blocks and one block
whose payload fails to parse, exactly 2 proposals are extracted but the clean
text still contains the `<ACTION>` marker — the malformed block's `replace`
sits inside the `try` and is skipped, so "zero occurrences of the markers"
fails. -/
theorem c3_counterexample :
    (parseAIResponse sampleText).proposals.length = 2
    ∧ (firstSplit openMarker (parseAIResponse sampleText).cleanText).isSome = true := by
  constructor
  · rfl
  · rfl

/-- C3 (amended): for a text made of two parseable single-proposal blocks and
one block whose payload fails `JSON.parse` (with segments and payloads free of
`'<'`, so the blocks are exactly the delimited regions), the parser returns
exactly 2 proposals — a malformed block never prevents extraction of its
siblings — and the clean text is the original text with the two *parsed*
blocks removed and then trimmed; the failed block, markers included, remains
in the clean text. -/
theorem c3_two_blocks_and_malformed
    (t0 t1 t2 t3 p1 p2 p3 : List Char) (j1 j2 : Json)
    (ht0 : ∀ x ∈ t0, x ≠ '<') (ht1 : ∀ x ∈ t1, x ≠ '<')
    (ht2 : ∀ x ∈ t2, x ≠ '<') (ht3 : ∀ x ∈ t3, x ≠ '<')
    (hp1 : ∀ x ∈ p1, x ≠ '<') (hp2 : ∀ x ∈ p2, x ≠ '<')
    (hp3 : ∀ x ∈ p3, x ≠ '<')
    (hj1 : parseJson p1 = some j1) (hn1 : (mkProposals j1).length = 1)
    (hj2 : parseJson p2 = some j2) (hn2 : (mkProposals j2).length = 1)
    (hj3 : parseJson p3 = none) :
    (parseAIResponse (t0 ++ blockChars p1 ++ t1 ++ blockChars p2 ++ t2 ++
        blockChars p3 ++ t3)).proposals.length = 2
    ∧ (parseAIResponse (t0 ++ blockChars p1 ++ t1 ++ blockChars p2 ++ t2 ++
        blockChars p3 ++ t3)).cleanText =
      jsTrimL (t0 ++ t1 ++ t2 ++ blockChars p3 ++ t3) := by
  have h01 : ∀ x ∈ t0 ++ t1, x ≠ '<' := by
    intro x hx
    rcases List.mem_append.mp hx with h | h
    · exact ht0 x h
    · exact ht1 x h
  have e1 : (t0 ++ blockChars p1 ++ t1 ++ blockChars p2 ++ t2 ++
      blockChars p3 ++ t3 : List Char) =
      t0 ++ blockChars p1 ++ (t1 ++ blockChars p2 ++ (t2 ++ blockChars p3 ++ t3)) := by
    simp [List.append_assoc]
  have hb1 : nextBlock (t0 ++ blockChars p1 ++
      (t1 ++ blockChars p2 ++ (t2 ++ blockChars p3 ++ t3))) =
      some ((blockChars p1, p1), t1 ++ blockChars p2 ++ (t2 ++ blockChars p3 ++ t3)) :=
    nextBlock_boundary _ _ _ ht0 hp1
  have hb2 : nextBlock (t1 ++ blockChars p2 ++ (t2 ++ blockChars p3 ++ t3)) =
      some ((blockChars p2, p2), t2 ++ blockChars p3 ++ t3) :=
    nextBlock_boundary _ _ _ ht1 hp2
  have hb3 : nextBlock (t2 ++ blockChars p3 ++ t3) =
      some ((blockChars p3, p3), t3) :=
    nextBlock_boundary _ _ _ ht2 hp3
  have hscan : scanActionBlocks (t0 ++ blockChars p1 ++ t1 ++ blockChars p2 ++
      t2 ++ blockChars p3 ++ t3) =
      [(blockChars p1, p1), (blockChars p2, p2), (blockChars p3, p3)] := by
    rw [e1, scanActionBlocks_cons _ _ _ hb1, scanActionBlocks_cons _ _ _ hb2,
      scanActionBlocks_cons _ _ _ hb3, scanActionBlocks_nil t3 (nextBlock_no_open t3 ht3)]
  have hr1 : replaceFirstRemove (t0 ++ blockChars p1 ++ t1 ++ blockChars p2 ++
      t2 ++ blockChars p3 ++ t3) (blockChars p1) =
      t0 ++ (t1 ++ blockChars p2 ++ (t2 ++ blockChars p3 ++ t3)) := by
    rw [e1]
    exact replaceFirstRemove_boundary _ _ _ ht0
  have e2 : (t0 ++ (t1 ++ blockChars p2 ++ (t2 ++ blockChars p3 ++ t3)) : List Char) =
      (t0 ++ t1) ++ blockChars p2 ++ (t2 ++ blockChars p3 ++ t3) := by
    simp [List.append_assoc]
  have hr2 : replaceFirstRemove
      (t0 ++ (t1 ++ blockChars p2 ++ (t2 ++ blockChars p3 ++ t3)))
      (blockChars p2) = (t0 ++ t1) ++ (t2 ++ blockChars p3 ++ t3) := by
    rw [e2]
    exact replaceFirstRemove_boundary _ _ _ h01
  have hresp : parseAIResponse (t0 ++ blockChars p1 ++ t1 ++ blockChars p2 ++
      t2 ++ blockChars p3 ++ t3) =
      ⟨jsTrimL ((t0 ++ t1) ++ (t2 ++ blockChars p3 ++ t3)),
        mkProposals j1 ++ mkProposals j2⟩ := by
    unfold parseAIResponse
    rw [hscan]
    simp only [List.foldl_cons, List.foldl_nil, hj1, hj2, hj3, hr1, hr2,
      List.nil_append]
  rw [hresp]
  constructor
  · simp [List.length_append, hn1, hn2]
  · show jsTrimL ((t0 ++ t1) ++ (t2 ++ blockChars p3 ++ t3)) = _
    congr 1
    simp [List.append_assoc]

/-- Witness for `c3_two_blocks_and_malformed` at the concrete three-block
text. -/
theorem c3_two_blocks_and_malformed_witness :
    (parseAIResponse sampleText).proposals.length = 2
    ∧ (parseAIResponse sampleText).cleanText =
      jsTrimL ("Hello ".data ++ " mid ".data ++ " tail ".data ++
        blockChars payloadBad ++ " end".data) :=
  c3_two_blocks_and_malformed "Hello ".data " mid ".data " tail ".data " end".data
    payloadGood1 payloadGood2 payloadBad
    (Json.obj [("item", Json.num 1)]) (Json.obj [("type", Json.str "DELETE")])
    (by decide) (by decide) (by decide) (by decide)
    (by decide) (by decide) (by decide)
    (by rfl) (by rfl) (by rfl) (by rfl) (by rfl)
